import Mathlib

/-!
Shallow embedding of `src/src/touch_calibration.cpp` (ESP32-S3 TFT ILI9341
touch-calibration sketch) together with theorems settling the specification
claims about it.

Machine integers are modelled as `Int` with explicit 16-bit wrapping
(`toInt16`) exactly where the C code narrows to `int16_t`; C's truncating
division is `Int.tdiv`.  The touch hardware is modelled as the sequence of
`TS_Point` values its successive `getPoint()` calls yield, and the busy
loops of `setup()` as folds over a finite list of loop-iteration events.
-/

/-- The value range of a C `int16_t`. -/
def isInt16 (n : Int) : Prop := -32768 ≤ n ∧ n ≤ 32767

instance (n : Int) : Decidable (isInt16 n) := by
  unfold isInt16; infer_instance

/-- C conversion of an integer to `int16_t`: reduce modulo 2^16 into
[-32768, 32767] (two's-complement wrap, as on the ESP32 target). -/
def toInt16 (n : Int) : Int :=
  if n % 65536 ≤ 32767 then n % 65536 else n % 65536 - 65536

/-- One raw reading returned by `touchscreen.getPoint()` (the library's
`TS_Point`: `int16_t` fields x, y, z). -/
structure TS_Point where
  x : Int
  y : Int
  z : Int
deriving DecidableEq

/-- The denoised triple produced by `getTouchParameters` (written through
the `int16_t` out-parameters `*touchX`, `*touchY`, `*touchZ`). -/
structure AveragedTouch where
  x : Int
  y : Int
  z : Int
deriving DecidableEq

/-- `#define SCREEN_WIDTH 240` -/
def SCREEN_WIDTH : Int := 240

/-- `#define SCREEN_HEIGHT 320` -/
def SCREEN_HEIGHT : Int := 320

/-- `#define THRESHOLD_Z 500` -/
def THRESHOLD_Z : Int := 500

/-- `#define THRESHOLD_Z_CALIBRATION 150` -/
def THRESHOLD_Z_CALIBRATION : Int := 150

/-- `const uint8_t SAMPLES = 20` (in `setup()`). -/
def SAMPLES : Nat := 20

/-- The `nrPoint` polls actually averaged by `getTouchParameters`:
one leading poll is thrown away, then `nrPoint` polls are collected. -/
def samplesOf (nrPoint : Nat) (polls : List TS_Point) : List TS_Point :=
  (polls.drop 1).take nrPoint

/-- `tempX` of `getTouchParameters`: the running sum of `p.x` over the
`nrPoint` retained polls (an `int32_t`; with at most 255 `int16_t`
summands it cannot overflow, so plain `Int` is faithful). -/
def xSum (nrPoint : Nat) (polls : List TS_Point) : Int :=
  ((samplesOf nrPoint polls).map TS_Point.x).sum

/-- `tempY` of `getTouchParameters`. -/
def ySum (nrPoint : Nat) (polls : List TS_Point) : Int :=
  ((samplesOf nrPoint polls).map TS_Point.y).sum

/-- `tempZ` of `getTouchParameters`: `p.z` of the first retained poll
(`if (i == 0) tempZ = p.z`), and 0 if the loop never runs. -/
def firstZ (nrPoint : Nat) (polls : List TS_Point) : Int :=
  match samplesOf nrPoint polls with
  | [] => 0
  | p :: _ => p.z

/-- `getTouchParameters(nrPoint, &x, &y, &z)` (lines 120-150): discard one
poll, retain `nrPoint` polls, and return
`*touchX = (int16_t) tempX / nrPoint`, `*touchY = (int16_t) tempY / nrPoint`,
`*touchZ = (int16_t) tempZ` (the cast binds before the division; C division
truncates toward zero). -/
def getTouchParameters (nrPoint : Nat) (polls : List TS_Point) : AveragedTouch :=
  { x := Int.tdiv (toInt16 (xSum nrPoint polls)) nrPoint
    y := Int.tdiv (toInt16 (ySum nrPoint polls)) nrPoint
    z := toInt16 (firstZ nrPoint polls) }

/-- Modelled from the spec: the Arduino `map` called at lines 279-280 is
library code not present in this repository's sources; the spec defines it
as the standard affine rescale
`out = (in - inMin) * (outMax - outMin) / (inMax - inMin) + outMin`
with truncating integer arithmetic. -/
def linearMap (v inMin inMax outMin outMax : Int) : Int :=
  Int.tdiv ((v - inMin) * (outMax - outMin)) (inMax - inMin) + outMin

/-- One iteration of a busy loop, as seen by the code: either
`touchscreen.touched()` is false, or it is true and the subsequent
`getTouchParameters(4, ...)` call consumes the given poll sequence. -/
inductive TouchEvent where
  | noTouch
  | touch (polls : List TS_Point)
deriving DecidableEq

/-- The sampled `AveragedTouch` of an iteration, when there is one. -/
def sampleOf : TouchEvent → Option AveragedTouch
  | TouchEvent.noTouch => none
  | TouchEvent.touch polls => some (getTouchParameters 4 polls)

/-- The sampled pressure of an iteration, when there is one. -/
def eventZ (e : TouchEvent) : Option Int :=
  (sampleOf e).map AveragedTouch.z

/-- The mutable state of one corner-collection phase of `setup()`:
`valuesX`/`valuesY` hold the entries written so far (the first
`collectedSamples` cells of the C arrays), plus the loop's counter and
completion flag. -/
structure CollectState where
  valuesX : List Int
  valuesY : List Int
  collectedSamples : Nat
  isSamplesCollected : Bool
deriving DecidableEq

/-- The state at entry of each collection phase (fresh arrays,
`collectedSamples = 0`, `isSamplesCollected = false`; the second phase is
explicitly reset to this state at lines 224-229). -/
def initCollectState : CollectState :=
  { valuesX := [], valuesY := [], collectedSamples := 0, isSamplesCollected := false }

/-- One iteration of the `while (!isSamplesCollected)` collection loop
(lines 181-196 and 231-246): if touched, sample with `nrPoint = 4`; store
and count the sample only when `z > THRESHOLD_Z_CALIBRATION`; set the
completion flag when the count reaches `SAMPLES`. -/
def collectStep (s : CollectState) (e : TouchEvent) : CollectState :=
  if s.isSamplesCollected then s
  else
    match e with
    | TouchEvent.noTouch => s
    | TouchEvent.touch polls =>
      if THRESHOLD_Z_CALIBRATION < (getTouchParameters 4 polls).z then
        { valuesX := s.valuesX ++ [(getTouchParameters 4 polls).x]
          valuesY := s.valuesY ++ [(getTouchParameters 4 polls).y]
          collectedSamples := s.collectedSamples + 1
          isSamplesCollected := decide (s.collectedSamples + 1 = SAMPLES) }
      else s

/-- Running one collection phase over a finite prefix of its iteration
stream, from the reset state. -/
def collectRun (es : List TouchEvent) : CollectState :=
  es.foldl collectStep initCollectState

/-- The samples a phase accepts from a stream, in order: the sampled
touches whose pressure exceeds `THRESHOLD_Z_CALIBRATION`. -/
def acceptsEvent (e : TouchEvent) : Option AveragedTouch :=
  match sampleOf e with
  | none => none
  | some t => if THRESHOLD_Z_CALIBRATION < t.z then some t else none

/-- All accepted samples of a stream, in order. -/
def acceptedOf (es : List TouchEvent) : List AveragedTouch :=
  es.filterMap acceptsEvent

/-- The sampled touches of a stream whose pressure is exactly 300
(the high-pressure samples of the claim's mixed-stream scenario). -/
def highSamples (es : List TouchEvent) : List AveragedTouch :=
  es.filterMap (fun e =>
    match sampleOf e with
    | none => none
    | some t => if t.z = 300 then some t else none)

/-- The calibration result of `setup()`: the four globals
`av_X_TL, av_Y_TL, av_X_BR, av_Y_BR` (lines 81-84). -/
structure Calib where
  av_X_TL : Int
  av_Y_TL : Int
  av_X_BR : Int
  av_Y_BR : Int
deriving DecidableEq

/-- The averaging after each phase (lines 204-209 and 254-259): sum the
`SAMPLES` stored values per axis and divide by `SAMPLES` (C truncating
division on `int32_t`), for the two phases' streams. -/
def setupCalib (esTL esBR : List TouchEvent) : Calib :=
  { av_X_TL := Int.tdiv (collectRun esTL).valuesX.sum (SAMPLES : Int)
    av_Y_TL := Int.tdiv (collectRun esTL).valuesY.sum (SAMPLES : Int)
    av_X_BR := Int.tdiv (collectRun esBR).valuesX.sum (SAMPLES : Int)
    av_Y_BR := Int.tdiv (collectRun esBR).valuesY.sum (SAMPLES : Int) }

/-- The observable display effect of one `loop()` iteration: either
nothing is drawn, or `tft.fillCircle(x, y, 2, TFT_RED)` is issued at the
given coordinates. -/
inductive DemoAction where
  | noDraw
  | draw (x y : Int)
deriving DecidableEq

/-- One iteration of the demo `loop()` (lines 270-289): if touched, sample
with `nrPoint = 4`; if `z > THRESHOLD_Z`, map each axis through the
Arduino `map` and store the results back into the `int16_t` globals
`x` and `y` (hence the `toInt16` narrowing), then draw the marker there. -/
def loopStep (c : Calib) (e : TouchEvent) : DemoAction :=
  match e with
  | TouchEvent.noTouch => DemoAction.noDraw
  | TouchEvent.touch polls =>
    if THRESHOLD_Z < (getTouchParameters 4 polls).z then
      DemoAction.draw
        (toInt16 (linearMap (getTouchParameters 4 polls).x c.av_X_TL c.av_X_BR 1 SCREEN_WIDTH))
        (toInt16 (linearMap (getTouchParameters 4 polls).y c.av_Y_TL c.av_Y_BR 1 SCREEN_HEIGHT))
    else DemoAction.noDraw

/-- A concrete touch iteration whose five polls all read (10, 10, 100):
its sampled pressure is 100. -/
def lowTouch : TouchEvent :=
  TouchEvent.touch (List.replicate 5 ⟨10, 10, 100⟩)

/-- A concrete touch iteration whose five polls all read (40, 50, 300):
its sampled pressure is 300. -/
def highTouch : TouchEvent :=
  TouchEvent.touch (List.replicate 5 ⟨40, 50, 300⟩)

/-- A concrete touch iteration whose five polls all read (3900, 3800, 300). -/
def brTouch : TouchEvent :=
  TouchEvent.touch (List.replicate 5 ⟨3900, 3800, 300⟩)

/-- A 25-iteration interleaving with 5 low-pressure (z = 100) and 20
high-pressure (z = 300) sampled touches. -/
def mixedStream : List TouchEvent :=
  [lowTouch] ++ List.replicate 7 highTouch ++ [lowTouch, lowTouch]
    ++ List.replicate 6 highTouch ++ [lowTouch] ++ List.replicate 7 highTouch
    ++ [lowTouch]

/-- A stream of exactly 20 accepted high-pressure touches. -/
def quotaStream : List TouchEvent :=
  List.replicate 20 highTouch

/-- A second stream of exactly 20 accepted high-pressure touches. -/
def brStream : List TouchEvent :=
  List.replicate 20 brTouch

/-- A stream on which every sampled touch is below the calibration
threshold. -/
def lowStream : List TouchEvent :=
  List.replicate 3 lowTouch ++ [TouchEvent.noTouch]

/-! ## Arithmetic helper lemmas -/

/-- The result of the `int16_t` conversion always lies in the `int16_t` range. -/
lemma toInt16_isInt16 (n : Int) : isInt16 (toInt16 n) := by
  unfold toInt16 isInt16
  have h1 : 0 ≤ n % 65536 := Int.emod_nonneg n (by norm_num)
  have h2 : n % 65536 < 65536 := Int.emod_lt_of_pos n (by norm_num)
  split <;> omega

/-- The `int16_t` conversion is the identity on the `int16_t` range. -/
lemma toInt16_eq_self {n : Int} (h : isInt16 n) : toInt16 n = n := by
  obtain ⟨hlo, hhi⟩ := h
  rcases le_or_lt 0 n with hn | hn
  · have hm : n % 65536 = n := Int.emod_eq_of_lt hn (by omega)
    unfold toInt16
    rw [hm]
    simp [hhi]
  · have h1 : (n + 65536 * 1) % 65536 = n % 65536 := Int.add_mul_emod_self_left n 65536 1
    have h2 : (n + 65536 * 1) % 65536 = n + 65536 * 1 :=
      Int.emod_eq_of_lt (by omega) (by omega)
    have hm : n % 65536 = n + 65536 := by omega
    unfold toInt16
    rw [hm]
    have : ¬ (n + 65536 ≤ 32767) := by omega
    simp [this]

/-- The `int16_t` conversion changes its argument by a multiple of 2^16. -/
lemma sub_toInt16_eq (n : Int) : ∃ k : Int, n - toInt16 n = 65536 * k := by
  have hdef : n % 65536 = n - 65536 * (n / 65536) := Int.emod_def n 65536
  unfold toInt16
  split
  · exact ⟨n / 65536, by omega⟩
  · exact ⟨n / 65536 + 1, by omega⟩

/-- The truncating remainder is bounded by the (positive) divisor on both sides. -/
lemma tmod_bound (a : Int) {n : Int} (hn : 0 < n) :
    -n < Int.tmod a n ∧ Int.tmod a n < n := by
  rcases le_or_lt 0 a with ha | ha
  · have h1 := Int.tmod_nonneg n ha
    have h2 := Int.tmod_lt_of_pos a hn
    omega
  · have hneg : Int.tmod a n = -(Int.tmod (-a) n) := by
      rw [Int.tmod_def, Int.tmod_def, Int.neg_tdiv]
      ring
    have h1 := Int.tmod_nonneg n (by omega : (0:Int) ≤ -a)
    have h2 := Int.tmod_lt_of_pos (-a) hn
    omega

/-- Truncating division by a small positive divisor separates points that are
at least 2^16 apart. -/
lemma tdiv_ne_of_far {a b n : Int} (hn : 0 < n) (h255 : n ≤ 255)
    (hfar : 65536 ≤ a - b ∨ a - b ≤ -65536) :
    Int.tdiv a n ≠ Int.tdiv b n := by
  intro heq
  have e1 : n * Int.tdiv a n + Int.tmod a n = a := Int.tdiv_add_tmod a n
  have e2 : n * Int.tdiv b n + Int.tmod b n = b := Int.tdiv_add_tmod b n
  have hmul : n * Int.tdiv a n = n * Int.tdiv b n := by rw [heq]
  have b1 := tmod_bound a hn
  have b2 := tmod_bound b hn
  omega

/-- Dividing the wrapped sum differs from dividing the true sum whenever the
true sum lies outside the `int16_t` range and the divisor is a nonzero
`uint8_t`. -/
lemma tdiv_toInt16_ne {S n : Int} (hS : ¬ isInt16 S) (hn : 0 < n) (h255 : n ≤ 255) :
    Int.tdiv (toInt16 S) n ≠ Int.tdiv S n := by
  obtain ⟨k, hk⟩ := sub_toInt16_eq S
  have h16 := toInt16_isInt16 S
  have hne : S ≠ toInt16 S := by
    intro h
    exact hS (h ▸ h16)
  unfold isInt16 at h16
  apply tdiv_ne_of_far hn h255
  have hk0 : k ≠ 0 := by
    intro h
    rw [h] at hk
    omega
  omega

/-- Sum of a list mapped through a function that is constant on it. -/
lemma sum_map_const {α : Type} (f : α → Int) (c : Int) :
    ∀ l : List α, (∀ p ∈ l, f p = c) → (l.map f).sum = l.length * c := by
  intro l
  induction l with
  | nil => simp
  | cons a t ih =>
    intro h
    have ha : f a = c := h a (List.mem_cons_self a t)
    have ht := ih (fun p hp => h p (List.mem_cons_of_mem a hp))
    simp [ha, ht]
    ring

/-! ## Collection-loop characterization -/

/-- Invariant of the collection loop's reachable states: the counter never
exceeds the quota and the completion flag tracks whether it was reached. -/
def goodState (s : CollectState) : Prop :=
  s.collectedSamples ≤ SAMPLES ∧
    s.isSamplesCollected = decide (SAMPLES ≤ s.collectedSamples)

/-- The reset state satisfies the loop invariant. -/
lemma goodState_init : goodState initCollectState := by
  constructor <;> simp [initCollectState, SAMPLES]

/-- Full characterization of one collection phase run from any invariant
state: the counter saturates at the quota, the flag records whether the
quota was reached, and the arrays receive exactly the accepted samples up
to the quota, in order. -/
lemma collect_foldl_spec (es : List TouchEvent) :
    ∀ s : CollectState, goodState s →
    (es.foldl collectStep s).collectedSamples
        = min SAMPLES (s.collectedSamples + (acceptedOf es).length)
    ∧ (es.foldl collectStep s).isSamplesCollected
        = decide (SAMPLES ≤ s.collectedSamples + (acceptedOf es).length)
    ∧ (es.foldl collectStep s).valuesX
        = s.valuesX ++ ((acceptedOf es).take (SAMPLES - s.collectedSamples)).map AveragedTouch.x
    ∧ (es.foldl collectStep s).valuesY
        = s.valuesY ++ ((acceptedOf es).take (SAMPLES - s.collectedSamples)).map AveragedTouch.y := by
  induction es with
  | nil =>
    intro s hs
    obtain ⟨h1, h2⟩ := hs
    refine ⟨by simp [acceptedOf]; omega, ?_, by simp [acceptedOf], by simp [acceptedOf]⟩
    simpa [acceptedOf] using h2
  | cons e es ih =>
    intro s hs
    obtain ⟨h1, h2⟩ := hs
    rw [List.foldl_cons]
    by_cases hflag : s.isSamplesCollected = true
    · have hc : s.collectedSamples = SAMPLES := by
        rw [hflag] at h2
        have := of_decide_eq_true h2.symm
        omega
      have hstep : collectStep s e = s := by
        unfold collectStep
        rw [hflag]
        simp
      rw [hstep]
      obtain ⟨i1, i2, i3, i4⟩ := ih s ⟨h1, h2⟩
      refine ⟨?_, ?_, ?_, ?_⟩
      · rw [i1, hc]
        omega
      · rw [i2, hc]
        simp
      · rw [i3, hc]
        simp
      · rw [i4, hc]
        simp
    · have hflag' : s.isSamplesCollected = false := by
        cases h : s.isSamplesCollected
        · rfl
        · exact absurd h hflag
      have hc : s.collectedSamples < SAMPLES := by
        rw [hflag'] at h2
        have := of_decide_eq_false h2.symm
        omega
      cases e with
      | noTouch =>
        have hstep : collectStep s TouchEvent.noTouch = s := by
          unfold collectStep
          rw [hflag']
          simp
        have hacc : acceptedOf (TouchEvent.noTouch :: es) = acceptedOf es := by
          simp [acceptedOf, acceptsEvent, sampleOf]
        rw [hstep, hacc]
        exact ih s ⟨h1, h2⟩
      | touch polls =>
        by_cases hz : THRESHOLD_Z_CALIBRATION < (getTouchParameters 4 polls).z
        · have hstep : collectStep s (TouchEvent.touch polls) =
              { valuesX := s.valuesX ++ [(getTouchParameters 4 polls).x]
                valuesY := s.valuesY ++ [(getTouchParameters 4 polls).y]
                collectedSamples := s.collectedSamples + 1
                isSamplesCollected := decide (s.collectedSamples + 1 = SAMPLES) } := by
            unfold collectStep
            rw [hflag']
            simp [hz]
          have hacc : acceptedOf (TouchEvent.touch polls :: es)
              = getTouchParameters 4 polls :: acceptedOf es := by
            simp [acceptedOf, acceptsEvent, sampleOf, hz]
          have hgood' : goodState
              { valuesX := s.valuesX ++ [(getTouchParameters 4 polls).x]
                valuesY := s.valuesY ++ [(getTouchParameters 4 polls).y]
                collectedSamples := s.collectedSamples + 1
                isSamplesCollected := decide (s.collectedSamples + 1 = SAMPLES) } := by
            constructor
            · simpa using hc
            · simp only []
              rw [decide_eq_decide]
              omega
          obtain ⟨i1, i2, i3, i4⟩ := ih _ hgood'
          have htake : SAMPLES - s.collectedSamples = (SAMPLES - (s.collectedSamples + 1)) + 1 := by
            omega
          refine ⟨?_, ?_, ?_, ?_⟩
          · rw [hstep, i1, hacc]
            simp only [List.length_cons]
            omega
          · rw [hstep, i2, hacc]
            simp only [List.length_cons]
            rw [decide_eq_decide]
            omega
          · rw [hstep, i3, hacc, htake, List.take_succ_cons]
            simp
          · rw [hstep, i4, hacc, htake, List.take_succ_cons]
            simp
        · have hstep : collectStep s (TouchEvent.touch polls) = s := by
            unfold collectStep
            rw [hflag']
            simp [hz]
          have hacc : acceptedOf (TouchEvent.touch polls :: es) = acceptedOf es := by
            simp [acceptedOf, acceptsEvent, sampleOf, hz]
          rw [hstep, hacc]
          exact ih s ⟨h1, h2⟩

/-- Characterization of a full phase started from the reset state. -/
lemma collectRun_spec (es : List TouchEvent) :
    (collectRun es).collectedSamples = min SAMPLES (acceptedOf es).length
    ∧ (collectRun es).isSamplesCollected = decide (SAMPLES ≤ (acceptedOf es).length)
    ∧ (collectRun es).valuesX = ((acceptedOf es).take SAMPLES).map AveragedTouch.x
    ∧ (collectRun es).valuesY = ((acceptedOf es).take SAMPLES).map AveragedTouch.y := by
  have h := collect_foldl_spec es initCollectState goodState_init
  simpa [collectRun, initCollectState] using h

/-- A stream all of whose sampled touches are at or below the calibration
threshold contributes no accepted samples. -/
lemma acceptedOf_eq_nil {es : List TouchEvent}
    (h : ∀ e ∈ es, ∀ t, sampleOf e = some t → t.z ≤ THRESHOLD_Z_CALIBRATION) :
    acceptedOf es = [] := by
  unfold acceptedOf
  rw [List.filterMap_eq_nil_iff]
  intro e he
  unfold acceptsEvent
  cases hse : sampleOf e with
  | none => rfl
  | some t =>
    have hz := h e he t hse
    have hz' : ¬ THRESHOLD_Z_CALIBRATION < t.z := by omega
    simp [hz']

/-- On a stream whose sampled pressures are all 100 or 300, the accepted
samples are exactly the pressure-300 samples. -/
lemma acceptedOf_eq_highSamples {es : List TouchEvent}
    (h : ∀ e ∈ es, eventZ e = some 100 ∨ eventZ e = some 300) :
    acceptedOf es = highSamples es := by
  unfold acceptedOf highSamples
  apply List.filterMap_congr
  intro e he
  unfold acceptsEvent
  cases hse : sampleOf e with
  | none => rfl
  | some t =>
    have hz := h e he
    rw [eventZ, hse] at hz
    simp only [Option.map_some'] at hz
    rcases hz with hz | hz
    · have hz' : t.z = 100 := by injection hz
      simp [THRESHOLD_Z_CALIBRATION, hz']
    · have hz' : t.z = 300 := by injection hz
      simp [THRESHOLD_Z_CALIBRATION, hz']

/-- A sampled touch at or below the calibration threshold leaves the
collection state unchanged: nothing is stored and the counter is not
incremented. -/
lemma collectStep_low (s : CollectState) (polls : List TS_Point)
    (hz : (getTouchParameters 4 polls).z ≤ THRESHOLD_Z_CALIBRATION) :
    collectStep s (TouchEvent.touch polls) = s := by
  have hz' : ¬ THRESHOLD_Z_CALIBRATION < (getTouchParameters 4 polls).z := by omega
  unfold collectStep
  cases hf : s.isSamplesCollected
  · simp [hz']
  · simp

/-! ## Claim theorems -/

/-- C1 (amended): the demo loop's calibration mapping is the affine rescale
`out = (in - inMin) * (outMax - outMin) / (inMax - inMin) + outMin` with
truncating integer arithmetic, and with reference points 100 and 3900 and
output range 1..240 it maps input 100 to 1, input 3900 to 240, and input
2000 to 120. -/
theorem C1_linearMap_affine :
    (∀ v a b c d : Int,
        linearMap v a b c d = Int.tdiv ((v - a) * (d - c)) (b - a) + c)
    ∧ linearMap 100 100 3900 1 240 = 1
    ∧ linearMap 3900 100 3900 1 240 = 240
    ∧ linearMap 2000 100 3900 1 240 = 120 :=
  ⟨fun _ _ _ _ _ => rfl, by decide, by decide, by decide⟩

/-- C1 counterexample: at input 2000 the mapping yields 120, not the 117
the claim states: `(2000-100)*(240-1)/(3900-100)+1 = 119+1 = 120`. -/
theorem C1_value_2000_counterexample :
    linearMap 2000 100 3900 1 240 = 120 ∧ linearMap 2000 100 3900 1 240 ≠ 117 := by
  decide

/-- C2 counterexample: sixteen polls of x = 4095 sum to 65520, which is
outside the `int16_t` range, so the returned x is `tdiv (toInt16 65520) 16
= tdiv (-16) 16 = -1`, not `65520 / 16 = 4095`. -/
theorem C2_average_counterexample :
    xSum 16 (List.replicate 17 (⟨4095, 4095, 300⟩ : TS_Point)) = 65520
    ∧ (getTouchParameters 16 (List.replicate 17 (⟨4095, 4095, 300⟩ : TS_Point))).x = -1
    ∧ ((-1 : Int) ≠ Int.tdiv 65520 16) := by
  decide

/-- C2 (amended): when the x-values of the `nrPoint` retained polls sum to
S with S in the `int16_t` range, the returned x is `S / nrPoint` with
truncating division, and symmetrically for y. -/
theorem C2_average_amended (nrPoint : Nat) (polls : List TS_Point)
    (hn : 0 < nrPoint) (hlen : nrPoint + 1 ≤ polls.length)
    (hx : isInt16 (xSum nrPoint polls)) (hy : isInt16 (ySum nrPoint polls)) :
    (getTouchParameters nrPoint polls).x = Int.tdiv (xSum nrPoint polls) (nrPoint : Int)
    ∧ (getTouchParameters nrPoint polls).y = Int.tdiv (ySum nrPoint polls) (nrPoint : Int) := by
  unfold getTouchParameters
  rw [toInt16_eq_self hx, toInt16_eq_self hy]
  exact ⟨rfl, rfl⟩

/-- C2 witness: x-values [1,1,1,2] with nrPoint = 4 sum to 5 and give
x = 5 / 4 = 1. -/
theorem C2_average_witness :
    xSum 4 [⟨7, 7, 7⟩, ⟨1, 5, 200⟩, ⟨1, 5, 200⟩, ⟨1, 5, 200⟩, ⟨2, 5, 200⟩] = 5
    ∧ ((getTouchParameters 4 [⟨7, 7, 7⟩, ⟨1, 5, 200⟩, ⟨1, 5, 200⟩, ⟨1, 5, 200⟩, ⟨2, 5, 200⟩]).x
        = Int.tdiv (xSum 4 [⟨7, 7, 7⟩, ⟨1, 5, 200⟩, ⟨1, 5, 200⟩, ⟨1, 5, 200⟩, ⟨2, 5, 200⟩]) ((4 : Nat) : Int)
      ∧ (getTouchParameters 4 [⟨7, 7, 7⟩, ⟨1, 5, 200⟩, ⟨1, 5, 200⟩, ⟨1, 5, 200⟩, ⟨2, 5, 200⟩]).y
        = Int.tdiv (ySum 4 [⟨7, 7, 7⟩, ⟨1, 5, 200⟩, ⟨1, 5, 200⟩, ⟨1, 5, 200⟩, ⟨2, 5, 200⟩]) ((4 : Nat) : Int))
    ∧ (getTouchParameters 4 [⟨7, 7, 7⟩, ⟨1, 5, 200⟩, ⟨1, 5, 200⟩, ⟨1, 5, 200⟩, ⟨2, 5, 200⟩]).x = 1 :=
  ⟨by decide,
   C2_average_amended 4 [⟨7, 7, 7⟩, ⟨1, 5, 200⟩, ⟨1, 5, 200⟩, ⟨1, 5, 200⟩, ⟨2, 5, 200⟩]
     (by decide) (by decide) (by decide) (by decide),
   by decide⟩

/-- C6 counterexample: sixteen identical polls at (4095, 4095) return
x = -1, not 4095, because the x-sum 65520 wraps to -16 before the
division. -/
theorem C6_constant_counterexample :
    (∀ p ∈ samplesOf 16 (List.replicate 17 (⟨4095, 4095, 300⟩ : TS_Point)),
        p.x = 4095 ∧ p.y = 4095)
    ∧ (getTouchParameters 16 (List.replicate 17 (⟨4095, 4095, 300⟩ : TS_Point))).x = -1
    ∧ ((-1 : Int) ≠ 4095) := by
  decide

/-- C6 (amended): when all `nrPoint` retained polls carry the same (x, y)
and `nrPoint * x` and `nrPoint * y` lie in the `int16_t` range, the Touch
Sampler returns exactly that (x, y), and the returned z is the raw z of
the first of those `nrPoint` polls — not the discarded poll's. -/
theorem C6_constant_amended (nrPoint : Nat) (d p₀ : TS_Point) (rest : List TS_Point)
    (cx cy : Int) (hn : 0 < nrPoint) (hlen : nrPoint ≤ (p₀ :: rest).length)
    (hconst : ∀ p ∈ samplesOf nrPoint (d :: p₀ :: rest), p.x = cx ∧ p.y = cy)
    (hx : isInt16 ((nrPoint : Int) * cx)) (hy : isInt16 ((nrPoint : Int) * cy))
    (hz : isInt16 p₀.z) :
    getTouchParameters nrPoint (d :: p₀ :: rest) = ⟨cx, cy, p₀.z⟩ := by
  have hne : ((nrPoint : Int)) ≠ 0 := by
    have : (0 : Int) < (nrPoint : Int) := by exact_mod_cast hn
    omega
  have hs : samplesOf nrPoint (d :: p₀ :: rest) = (p₀ :: rest).take nrPoint := by
    simp [samplesOf]
  have hlen' : (samplesOf nrPoint (d :: p₀ :: rest)).length = nrPoint := by
    rw [hs, List.length_take]
    omega
  have hxsum : xSum nrPoint (d :: p₀ :: rest) = (nrPoint : Int) * cx := by
    unfold xSum
    rw [sum_map_const TS_Point.x cx _ (fun p hp => (hconst p hp).1), hlen']
  have hysum : ySum nrPoint (d :: p₀ :: rest) = (nrPoint : Int) * cy := by
    unfold ySum
    rw [sum_map_const TS_Point.y cy _ (fun p hp => (hconst p hp).2), hlen']
  have hfz : firstZ nrPoint (d :: p₀ :: rest) = p₀.z := by
    unfold firstZ
    rw [hs]
    cases nrPoint with
    | zero => exact absurd hn (by omega)
    | succ n =>
      rw [List.take_succ_cons]
  unfold getTouchParameters
  rw [hxsum, hysum, hfz, toInt16_eq_self hx, toInt16_eq_self hy, toInt16_eq_self hz,
    Int.mul_tdiv_cancel_left _ hne, Int.mul_tdiv_cancel_left _ hne]

/-- C6 witness: four constant polls at (50, 60) with z = 300 behind a
discarded poll (9, 9, 9) return exactly (50, 60, 300). -/
theorem C6_constant_witness :
    getTouchParameters 4
        [⟨9, 9, 9⟩, ⟨50, 60, 300⟩, ⟨50, 60, 300⟩, ⟨50, 60, 300⟩, ⟨50, 60, 300⟩]
      = ⟨50, 60, 300⟩ :=
  C6_constant_amended 4 ⟨9, 9, 9⟩ ⟨50, 60, 300⟩
    [⟨50, 60, 300⟩, ⟨50, 60, 300⟩, ⟨50, 60, 300⟩] 50 60
    (by decide) (by decide) (by decide) (by decide) (by decide) (by decide)

/-- C7 counterexample: with calibration references 0 and 1 on the x axis
(equal-looking but distinct, divisor 1), a touch sampled at x = 300 maps to
71701, which overflows `int16_t`; the marker is drawn at the wrapped value
6165, not at the linear-map output 71701. -/
theorem C7_marker_counterexample :
    loopStep ⟨0, 0, 1, 1⟩ (TouchEvent.touch (List.replicate 5 (⟨300, 0, 600⟩ : TS_Point)))
      = DemoAction.draw 6165 1
    ∧ linearMap 300 0 1 1 SCREEN_WIDTH = 71701
    ∧ ((6165 : Int) ≠ 71701) := by
  decide

/-- C7 (amended): in a demo-loop iteration with a touch present, no marker
is drawn when the sampled z is at most `THRESHOLD_Z`; when z exceeds it a
marker is drawn at the `int16_t` narrowings of the two independently
computed linear-map outputs, which equal those outputs exactly whenever
they lie in the `int16_t` range. -/
theorem C7_demo_draw (c : Calib) (polls : List TS_Point) :
    ((getTouchParameters 4 polls).z ≤ THRESHOLD_Z →
      loopStep c (TouchEvent.touch polls) = DemoAction.noDraw)
    ∧ (THRESHOLD_Z < (getTouchParameters 4 polls).z →
      loopStep c (TouchEvent.touch polls)
        = DemoAction.draw
            (toInt16 (linearMap (getTouchParameters 4 polls).x c.av_X_TL c.av_X_BR 1 SCREEN_WIDTH))
            (toInt16 (linearMap (getTouchParameters 4 polls).y c.av_Y_TL c.av_Y_BR 1 SCREEN_HEIGHT)))
    ∧ (THRESHOLD_Z < (getTouchParameters 4 polls).z →
      isInt16 (linearMap (getTouchParameters 4 polls).x c.av_X_TL c.av_X_BR 1 SCREEN_WIDTH) →
      isInt16 (linearMap (getTouchParameters 4 polls).y c.av_Y_TL c.av_Y_BR 1 SCREEN_HEIGHT) →
      loopStep c (TouchEvent.touch polls)
        = DemoAction.draw
            (linearMap (getTouchParameters 4 polls).x c.av_X_TL c.av_X_BR 1 SCREEN_WIDTH)
            (linearMap (getTouchParameters 4 polls).y c.av_Y_TL c.av_Y_BR 1 SCREEN_HEIGHT)) := by
  refine ⟨?_, ?_, ?_⟩
  · intro h
    have h' : ¬ THRESHOLD_Z < (getTouchParameters 4 polls).z := by omega
    simp [loopStep, h']
  · intro h
    simp [loopStep, h]
  · intro h hx hy
    simp [loopStep, h, toInt16_eq_self hx, toInt16_eq_self hy]

/-- C7 witness: the spec's scenario: calibration (100, 100, 3900, 3900) and
a raw touch at (2000, 2000, 600) draw the marker at exactly
(linearMap 2000 .. = 120, linearMap 2000 .. = 160). -/
theorem C7_demo_draw_witness :
    loopStep ⟨100, 100, 3900, 3900⟩
        (TouchEvent.touch (List.replicate 5 (⟨2000, 2000, 600⟩ : TS_Point)))
      = DemoAction.draw
          (linearMap (getTouchParameters 4 (List.replicate 5 (⟨2000, 2000, 600⟩ : TS_Point))).x
            100 3900 1 SCREEN_WIDTH)
          (linearMap (getTouchParameters 4 (List.replicate 5 (⟨2000, 2000, 600⟩ : TS_Point))).y
            100 3900 1 SCREEN_HEIGHT) :=
  (C7_demo_draw ⟨100, 100, 3900, 3900⟩ (List.replicate 5 (⟨2000, 2000, 600⟩ : TS_Point))).2.2
    (by decide) (by decide) (by decide)

/-- C8: `getTouchParameters` casts the 32-bit running sum to `int16_t`
before dividing, so the returned average equals the truncated mean exactly
when the sum lies in [-32768, 32767]; for sums outside that range the sum
is first wrapped modulo 2^16 and the result differs from `S / nrPoint`. -/
theorem C8_cast_before_divide (nrPoint : Nat) (polls : List TS_Point)
    (hn : 0 < nrPoint) (h255 : nrPoint ≤ 255) :
    ((getTouchParameters nrPoint polls).x
        = Int.tdiv (toInt16 (xSum nrPoint polls)) (nrPoint : Int)
      ∧ (getTouchParameters nrPoint polls).y
        = Int.tdiv (toInt16 (ySum nrPoint polls)) (nrPoint : Int))
    ∧ (isInt16 (xSum nrPoint polls) →
        (getTouchParameters nrPoint polls).x = Int.tdiv (xSum nrPoint polls) (nrPoint : Int))
    ∧ (¬ isInt16 (xSum nrPoint polls) →
        (getTouchParameters nrPoint polls).x ≠ Int.tdiv (xSum nrPoint polls) (nrPoint : Int))
    ∧ (isInt16 (ySum nrPoint polls) →
        (getTouchParameters nrPoint polls).y = Int.tdiv (ySum nrPoint polls) (nrPoint : Int))
    ∧ (¬ isInt16 (ySum nrPoint polls) →
        (getTouchParameters nrPoint polls).y ≠ Int.tdiv (ySum nrPoint polls) (nrPoint : Int)) := by
  have hn' : (0 : Int) < (nrPoint : Int) := by exact_mod_cast hn
  have h255' : ((nrPoint : Nat) : Int) ≤ 255 := by exact_mod_cast h255
  refine ⟨⟨rfl, rfl⟩, ?_, ?_, ?_, ?_⟩
  · intro h
    show Int.tdiv (toInt16 (xSum nrPoint polls)) (nrPoint : Int)
        = Int.tdiv (xSum nrPoint polls) (nrPoint : Int)
    rw [toInt16_eq_self h]
  · intro h
    show Int.tdiv (toInt16 (xSum nrPoint polls)) (nrPoint : Int)
        ≠ Int.tdiv (xSum nrPoint polls) (nrPoint : Int)
    exact tdiv_toInt16_ne h hn' h255'
  · intro h
    show Int.tdiv (toInt16 (ySum nrPoint polls)) (nrPoint : Int)
        = Int.tdiv (ySum nrPoint polls) (nrPoint : Int)
    rw [toInt16_eq_self h]
  · intro h
    show Int.tdiv (toInt16 (ySum nrPoint polls)) (nrPoint : Int)
        ≠ Int.tdiv (ySum nrPoint polls) (nrPoint : Int)
    exact tdiv_toInt16_ne h hn' h255'

/-- C8 witness: at nrPoint = 16 with all x = 4095, the sum 65520 is outside
the `int16_t` range and the returned x differs from 65520 / 16. -/
theorem C8_cast_before_divide_witness :
    (¬ isInt16 (xSum 16 (List.replicate 17 (⟨4095, 4095, 300⟩ : TS_Point))))
    ∧ ((getTouchParameters 16 (List.replicate 17 (⟨4095, 4095, 300⟩ : TS_Point))).x
        ≠ Int.tdiv (xSum 16 (List.replicate 17 (⟨4095, 4095, 300⟩ : TS_Point))) ((16 : Nat) : Int)) :=
  ⟨by decide,
   (C8_cast_before_divide 16 (List.replicate 17 (⟨4095, 4095, 300⟩ : TS_Point))
      (by decide) (by decide)).2.2.1 (by decide)⟩

/-- C9: the demo-loop mapping's divisor is `inMax - inMin` with no guard:
the unguarded formula holds for all arguments, equal corner references make
the divisor zero on that axis, and the loop still applies the mapping
unconditionally on any high-pressure touch even with equal references. -/
theorem C9_unguarded_divisor :
    (∀ v a b c d : Int,
        linearMap v a b c d = Int.tdiv ((v - a) * (d - c)) (b - a) + c)
    ∧ (∀ cal : Calib, cal.av_X_TL = cal.av_X_BR → cal.av_X_BR - cal.av_X_TL = 0)
    ∧ (∀ cal : Calib, cal.av_Y_TL = cal.av_Y_BR → cal.av_Y_BR - cal.av_Y_TL = 0)
    ∧ (∀ (cal : Calib) (polls : List TS_Point),
        cal.av_X_TL = cal.av_X_BR →
        THRESHOLD_Z < (getTouchParameters 4 polls).z →
        loopStep cal (TouchEvent.touch polls)
          = DemoAction.draw
              (toInt16 (Int.tdiv (((getTouchParameters 4 polls).x - cal.av_X_TL)
                  * (SCREEN_WIDTH - 1)) 0 + 1))
              (toInt16 (linearMap (getTouchParameters 4 polls).y cal.av_Y_TL cal.av_Y_BR 1
                  SCREEN_HEIGHT))) := by
  refine ⟨fun _ _ _ _ _ => rfl, fun cal h => by omega, fun cal h => by omega, ?_⟩
  intro cal polls heq hz
  have hdiv : cal.av_X_BR - cal.av_X_TL = 0 := by omega
  simp [loopStep, hz, linearMap, hdiv]

/-- C9 witness: a calibration with equal x references has a zero divisor on
the x axis. -/
theorem C9_unguarded_divisor_witness :
    (⟨5, 6, 5, 7⟩ : Calib).av_X_BR - (⟨5, 6, 5, 7⟩ : Calib).av_X_TL = 0 :=
  C9_unguarded_divisor.2.1 ⟨5, 6, 5, 7⟩ rfl

/-- C3: a sampled touch with z at most `THRESHOLD_Z_CALIBRATION` is never
stored and never increments the accepted count, and on any 25-iteration
interleaving of 5 pressure-100 and 20 pressure-300 sampled touches exactly
20 acceptances occur and the stored arrays hold exactly the 20
high-pressure samples. -/
theorem C3_mixed_stream (s : CollectState) (polls : List TS_Point)
    (hz : (getTouchParameters 4 polls).z ≤ THRESHOLD_Z_CALIBRATION)
    (es : List TouchEvent)
    (hall : ∀ e ∈ es, eventZ e = some 100 ∨ eventZ e = some 300)
    (hlen : es.length = 25)
    (hhigh : (highSamples es).length = 20) :
    collectStep s (TouchEvent.touch polls) = s
    ∧ (collectRun es).collectedSamples = 20
    ∧ (collectRun es).isSamplesCollected = true
    ∧ (collectRun es).valuesX = (highSamples es).map AveragedTouch.x
    ∧ (collectRun es).valuesY = (highSamples es).map AveragedTouch.y := by
  have hacc : acceptedOf es = highSamples es := acceptedOf_eq_highSamples hall
  obtain ⟨r1, r2, r3, r4⟩ := collectRun_spec es
  have h20 : SAMPLES = (highSamples es).length := by
    rw [hhigh]
    rfl
  refine ⟨collectStep_low s polls hz, ?_, ?_, ?_, ?_⟩
  · rw [r1, hacc, hhigh]
    decide
  · rw [r2, hacc, hhigh]
    decide
  · rw [r3, hacc, h20, List.take_length]
  · rw [r4, hacc, h20, List.take_length]

/-- C3 witness: a concrete interleaving of 5 low- and 20 high-pressure
touches produces exactly 20 acceptances and stores only the high samples. -/
theorem C3_mixed_stream_witness :
    collectStep initCollectState (TouchEvent.touch (List.replicate 5 ⟨10, 10, 100⟩))
        = initCollectState
    ∧ (collectRun mixedStream).collectedSamples = 20
    ∧ (collectRun mixedStream).isSamplesCollected = true
    ∧ (collectRun mixedStream).valuesX = (highSamples mixedStream).map AveragedTouch.x
    ∧ (collectRun mixedStream).valuesY = (highSamples mixedStream).map AveragedTouch.y :=
  C3_mixed_stream initCollectState (List.replicate 5 ⟨10, 10, 100⟩) (by decide)
    mixedStream (by decide) (by decide) (by decide)

/-- C4: a collection phase completes on a finite iteration stream exactly
when the stream supplies at least `SAMPLES` touches above the calibration
threshold; on completion exactly `SAMPLES` samples were accepted; a stream
whose sampled touches all stay at or below the threshold never completes,
however long it runs. -/
theorem C4_collection_termination (es : List TouchEvent) :
    ((collectRun es).isSamplesCollected = true ↔ SAMPLES ≤ (acceptedOf es).length)
    ∧ ((collectRun es).isSamplesCollected = true →
        (collectRun es).collectedSamples = SAMPLES)
    ∧ ((∀ e ∈ es, ∀ t ∈ sampleOf e, t.z ≤ THRESHOLD_Z_CALIBRATION) →
        (collectRun es).isSamplesCollected = false) := by
  obtain ⟨r1, r2, r3, r4⟩ := collectRun_spec es
  refine ⟨?_, ?_, ?_⟩
  · rw [r2]
    simp [decide_eq_true_eq]
  · intro h
    rw [r2] at h
    have h' := of_decide_eq_true h
    rw [r1]
    omega
  · intro h
    have h' : ∀ e ∈ es, ∀ t, sampleOf e = some t → t.z ≤ THRESHOLD_Z_CALIBRATION := by
      intro e he t ht
      exact h e he t (Option.mem_def.mpr ht)
    rw [r2, acceptedOf_eq_nil h']
    decide

/-- C4 witness: a stream of only low-pressure touches (and an idle
iteration) never sets the completion flag. -/
theorem C4_collection_termination_witness :
    (collectRun lowStream).isSamplesCollected = false :=
  (C4_collection_termination lowStream).2.2 (by decide)

/-- C5: when a phase's stream supplies exactly `SAMPLES` accepted samples,
each CornerReference coordinate equals the sum of that coordinate over the
phase's accepted samples divided by `SAMPLES` with truncating division. -/
theorem C5_corner_average (esTL esBR : List TouchEvent)
    (hTL : (acceptedOf esTL).length = SAMPLES)
    (hBR : (acceptedOf esBR).length = SAMPLES) :
    (setupCalib esTL esBR).av_X_TL
        = Int.tdiv (((acceptedOf esTL).map AveragedTouch.x).sum) (SAMPLES : Int)
    ∧ (setupCalib esTL esBR).av_Y_TL
        = Int.tdiv (((acceptedOf esTL).map AveragedTouch.y).sum) (SAMPLES : Int)
    ∧ (setupCalib esTL esBR).av_X_BR
        = Int.tdiv (((acceptedOf esBR).map AveragedTouch.x).sum) (SAMPLES : Int)
    ∧ (setupCalib esTL esBR).av_Y_BR
        = Int.tdiv (((acceptedOf esBR).map AveragedTouch.y).sum) (SAMPLES : Int) := by
  obtain ⟨r1, r2, r3, r4⟩ := collectRun_spec esTL
  obtain ⟨q1, q2, q3, q4⟩ := collectRun_spec esBR
  have tTL : (acceptedOf esTL).take SAMPLES = acceptedOf esTL := by
    rw [← hTL]
    exact List.take_length _
  have tBR : (acceptedOf esBR).take SAMPLES = acceptedOf esBR := by
    rw [← hBR]
    exact List.take_length _
  refine ⟨?_, ?_, ?_, ?_⟩
  · show Int.tdiv (collectRun esTL).valuesX.sum (SAMPLES : Int) = _
    rw [r3, tTL]
  · show Int.tdiv (collectRun esTL).valuesY.sum (SAMPLES : Int) = _
    rw [r4, tTL]
  · show Int.tdiv (collectRun esBR).valuesX.sum (SAMPLES : Int) = _
    rw [q3, tBR]
  · show Int.tdiv (collectRun esBR).valuesY.sum (SAMPLES : Int) = _
    rw [q4, tBR]

/-- C5 witness: two concrete completed phases; in particular the top-left
x reference is 40 = (20 * 40) / 20 and the bottom-right x reference is
3900. -/
theorem C5_corner_average_witness :
    ((setupCalib quotaStream brStream).av_X_TL
        = Int.tdiv (((acceptedOf quotaStream).map AveragedTouch.x).sum) (SAMPLES : Int)
      ∧ (setupCalib quotaStream brStream).av_Y_TL
        = Int.tdiv (((acceptedOf quotaStream).map AveragedTouch.y).sum) (SAMPLES : Int)
      ∧ (setupCalib quotaStream brStream).av_X_BR
        = Int.tdiv (((acceptedOf brStream).map AveragedTouch.x).sum) (SAMPLES : Int)
      ∧ (setupCalib quotaStream brStream).av_Y_BR
        = Int.tdiv (((acceptedOf brStream).map AveragedTouch.y).sum) (SAMPLES : Int))
    ∧ (setupCalib quotaStream brStream).av_X_TL = 40
    ∧ (setupCalib quotaStream brStream).av_X_BR = 3900 :=
  ⟨C5_corner_average quotaStream brStream (by decide) (by decide), by decide, by decide⟩

/-- C10: whenever a collection loop is still running (completion flag
clear) the store index is strictly below `SAMPLES`, so every array write
is in bounds; the arrays hold exactly as many entries as the counter, and
exactly `SAMPLES` on completion; and the bottom-right reference depends
only on its own phase's stream because state is reset between phases. -/
theorem C10_write_bounds (es esTL esTL' esBR : List TouchEvent) :
    ((collectRun es).isSamplesCollected = false →
        (collectRun es).collectedSamples < SAMPLES)
    ∧ (collectRun es).valuesX.length = (collectRun es).collectedSamples
    ∧ (collectRun es).valuesY.length = (collectRun es).collectedSamples
    ∧ ((collectRun es).isSamplesCollected = true →
        (collectRun es).valuesX.length = SAMPLES
          ∧ (collectRun es).valuesY.length = SAMPLES)
    ∧ (setupCalib esTL esBR).av_X_BR = (setupCalib esTL' esBR).av_X_BR
    ∧ (setupCalib esTL esBR).av_Y_BR = (setupCalib esTL' esBR).av_Y_BR := by
  obtain ⟨r1, r2, r3, r4⟩ := collectRun_spec es
  refine ⟨?_, ?_, ?_, ?_, rfl, rfl⟩
  · intro h
    rw [r2] at h
    have h' := of_decide_eq_false h
    rw [r1]
    omega
  · rw [r1, r3, List.length_map, List.length_take]
  · rw [r1, r4, List.length_map, List.length_take]
  · intro h
    rw [r2] at h
    have h' := of_decide_eq_true h
    constructor
    · rw [r3, List.length_map, List.length_take]
      omega
    · rw [r4, List.length_map, List.length_take]
      omega

/-- C10 witness: after two accepted samples the loop is still in bounds:
the counter is 2 < 20. -/
theorem C10_write_bounds_witness :
    (collectRun (List.replicate 2 highTouch)).collectedSamples < SAMPLES :=
  (C10_write_bounds (List.replicate 2 highTouch) [] [] []).1 (by decide)
